import Mathlib

/-!
Verification of the loan-ledger / card-status / credential-service core of the
student ID card portal (Universidad del Pacífico).  The JavaScript source is
shallowly embedded: timestamps are integers counting milliseconds (as in
`Date.now()` / `Date#getTime`), local time is modelled with a zero UTC offset
(every quantity in the claims is a difference or comparison of timestamps, so a
constant offset is irrelevant), records are Lean structures, and the Supabase
row store is a list of records updated by pure state-passing functions.
The SHA-256 digest is an uninterpreted parameter `hash : String → String` of
every operation that needs it.
-/

namespace Carnet

/-- Milliseconds in one day (`1000 * 60 * 60 * 24` in the source). -/
def msPerDay : Int := 86400000

/-- `sanitize` from `api.js`: strips the characters `<` and `>`
(`String(text).replace of [<>] with empty`). -/
def sanitize (s : String) : String :=
  String.mk (s.data.filter (fun c => c != '<' && c != '>'))

/-- The fixed 12-entry Spanish month vocabulary shared by
`formatDateToSpanish` (utils.js) and the expiry parser (staff page). -/
def monthNames : List String :=
  ["ENERO", "FEBRERO", "MARZO", "ABRIL", "MAYO", "JUNIO",
   "JULIO", "AGOSTO", "SEPTIEMBRE", "OCTUBRE", "NOVIEMBRE", "DICIEMBRE"]

/-- Proleptic Gregorian leap-year rule, as implemented by JS `Date`. -/
def isLeap (y : Int) : Bool :=
  y % 4 == 0 && (y % 100 != 0 || y % 400 == 0)

/-- Number of days in month `m` (1-based) of year `y`. -/
def daysInMonth (y : Int) (m : Nat) : Nat :=
  if m = 2 then (if isLeap y then 29 else 28)
  else if m = 4 ∨ m = 6 ∨ m = 9 ∨ m = 11 then 30 else 31

/-- Day count of the proleptic Gregorian date `(y, m, d)` relative to the Unix
epoch 1970-01-01 (the standard civil-from-days algorithm, truncating division
as in C; `d` is an integer so that out-of-range day numbers roll over exactly
the way the JS `Date(year, monthIndex, day)` constructor rolls them over). -/
def daysFromCivil (y : Int) (m : Nat) (d : Int) : Int :=
  let y' : Int := if m ≤ 2 then y - 1 else y
  let era : Int := Int.tdiv (if 0 ≤ y' then y' else y' - 399) 400
  let yoe : Int := y' - era * 400
  let mp : Nat := (m + 9) % 12
  let doy : Int := ((153 * mp + 2) / 5 : Nat) + d - 1
  let doe : Int := yoe * 365 + Int.tdiv yoe 4 - Int.tdiv yoe 100 + doy
  era * 146097 + doe - 719468

/-- Millisecond timestamp of local midnight of the date `(y, m, d)`. -/
def dateToMs (y : Int) (m : Nat) (d : Int) : Int :=
  daysFromCivil y m d * msPerDay

/-- Semantics of the JS constructor `new Date(year, monthIndex, day)` used by
the long-form expiry parser, as a midnight timestamp.  `monthIndex` is 0-based.
A year between 0 and 99 is mapped to `1900 + year` (the documented JS `Date`
two-digit-year rule); day overflow rolls over into later months. -/
def jsDateYMD (y : Int) (m0 : Nat) (d : Int) : Int :=
  let yy : Int := if 0 ≤ y ∧ y ≤ 99 then y + 1900 else y
  dateToMs yy (m0 + 1) d

/-- Decimal digits of a natural number, most significant first; structurally
recursive on a fuel argument so the kernel can evaluate it. -/
def natDigitsAux : Nat → Nat → List Char
  | 0, _ => []
  | fuel + 1, n =>
    if n < 10 then [Nat.digitChar n]
    else natDigitsAux fuel (n / 10) ++ [Nat.digitChar (n % 10)]

/-- Decimal digits of a natural number, most significant first. -/
def natDigits (n : Nat) : List Char := natDigitsAux (n + 1) n

/-- Decimal rendering of an integer (used to model JS template interpolation
of numbers in `formatDateToSpanish`). -/
def intDigits (y : Int) : List Char :=
  if y < 0 then '-' :: natDigits y.natAbs else natDigits y.natAbs

/-- Numeric value of one decimal digit character. -/
def digitVal (c : Char) : Nat := c.toNat - 48

/-- Value of a list of decimal digit characters, most significant first. -/
def digitsVal (cs : List Char) : Nat :=
  cs.foldl (fun a c => a * 10 + digitVal c) 0

/-- JS `parseInt` restricted to the token shapes the expiry parser can see
(no surrounding whitespace, optional leading minus sign, then a maximal run of
decimal digits; `none` models `NaN`). -/
def jsParseInt (cs : List Char) : Option Int :=
  match cs with
  | [] => none
  | c :: rest =>
    if c = '-' then
      if (rest.takeWhile Char.isDigit).isEmpty then none
      else some (-(digitsVal (rest.takeWhile Char.isDigit) : Int))
    else
      if ((c :: rest).takeWhile Char.isDigit).isEmpty then none
      else some ((digitsVal ((c :: rest).takeWhile Char.isDigit) : Int))

/-- JS `String#split` with a one-character separator: splits at every
occurrence, keeping empty fragments. -/
def splitChar (sep : Char) : List Char → List (List Char)
  | [] => [[]]
  | c :: rest =>
    match splitChar sep rest with
    | [] => [[]]
    | h :: t => if c = sep then [] :: h :: t else (c :: h) :: t

/-- `months.indexOf(part)` over the fixed month vocabulary;
`none` models the result `-1`. -/
def monthIndexOf (target : List Char) : Option Nat :=
  go (monthNames.map String.data)
where
  go : List (List Char) → Option Nat
    | [] => none
    | m :: rest => if m = target then some 0 else (go rest).map (· + 1)

/-- Is every character a decimal digit? -/
def allDigits (cs : List Char) : Bool := cs.all Char.isDigit

/-- The ISO branch `new Date(expiry + 'T00:00:00')` of the expiry parser:
a `Y-M-D` string of decimal components naming a real calendar date parses to
its local-midnight timestamp; anything else is an invalid date (`none`). -/
def parseIsoDate (cs : List Char) : Option Int :=
  match splitChar '-' cs with
  | [ys, ms, ds] =>
    if allDigits ys && allDigits ms && allDigits ds &&
       !ys.isEmpty && !ms.isEmpty && !ds.isEmpty then
      let y : Int := digitsVal ys
      let m : Nat := digitsVal ms
      let d : Nat := digitsVal ds
      if 1 ≤ m ∧ m ≤ 12 ∧ 1 ≤ d ∧ d ≤ daysInMonth y m then
        some (dateToMs y m (d : Int))
      else none
    else none
  | _ => none

/-- The shared expiry-date parsing logic of `isExpired` and `isExpiringSoon`
(staff page): empty input is rejected up front; input containing a space is
parsed as the long Spanish form `day MONTHNAME year` (month name not in the
vocabulary, or a non-numeric day/year component, yields no usable date —
in the source an `undefined` or `Invalid Date`, whose comparisons are all
false); otherwise the ISO branch is used.  `some t` is the parsed
local-midnight timestamp. -/
def parseExpiryChars (cs : List Char) : Option Int :=
  if cs = [] then none
  else if ' ' ∈ cs then
    match splitChar ' ' cs with
    | p0 :: p1 :: p2 :: _ =>
      match monthIndexOf p1 with
      | some mi =>
        match jsParseInt p0, jsParseInt p2 with
        | some d, some y => some (jsDateYMD y mi d)
        | _, _ => none
      | none => none
    | _ => none
  else parseIsoDate cs

/-- String-level entry point of the expiry parser. -/
def parseExpiry (s : String) : Option Int := parseExpiryChars s.data

/-- Local midnight of the instant `now` (`today.setHours(0,0,0,0)`). -/
def midnightOf (now : Int) : Int := now / msPerDay * msPerDay

/-- `Math.ceil(a / b)` for integers with `b > 0` (the float division in the
source is exact at these magnitudes, day distances being at least `1/b` away
from any integer they are not equal to). -/
def jsCeilDiv (a b : Int) : Int := -(-a / b)

/-- `isExpired(expiry)` from the staff page at reference instant `now`:
the parsed expiry date (already a midnight) is strictly before today's
midnight; unparseable input is never expired. -/
def isExpired (expiry : String) (now : Int) : Bool :=
  match parseExpiry expiry with
  | some e => decide (e < midnightOf now)
  | none => false

/-- `isExpiringSoon(expiry)` from the staff page at reference instant `now`:
`Math.ceil((expiryDate - today) / msPerDay)` is between 0 and 30; here
`today` is the full current instant, not its midnight.  Unparseable input is
never expiring soon. -/
def isExpiringSoon (expiry : String) (now : Int) : Bool :=
  match parseExpiry expiry with
  | some e => decide (0 ≤ jsCeilDiv (e - now) msPerDay ∧ jsCeilDiv (e - now) msPerDay ≤ 30)
  | none => false

/-- The four card status badges rendered by `renderStudentList`. -/
inductive CardStatus where
  | INACTIVE
  | EXPIRED
  | EXPIRING_SOON
  | ACTIVE
deriving DecidableEq, Repr

/-- Status badge classification of one student row in `renderStudentList`:
`isActive` is the JS test `s.active !== false` (a missing flag counts as
active), and the badge is chosen by the cascade inactive / expired /
expiring / active. -/
def classify (expiry : String) (active : Option Bool) (now : Int) : CardStatus :=
  if active = some false then CardStatus.INACTIVE
  else if isExpired expiry now then CardStatus.EXPIRED
  else if isExpiringSoon expiry now then CardStatus.EXPIRING_SOON
  else CardStatus.ACTIVE

/-- `formatDateToSpanish` from `utils.js` applied to (the ISO rendering of)
the calendar date `(y, m, d)` with `m` 1-based: renders
`day MONTHNAME year` with unpadded decimal numbers. -/
def formatDateToSpanish (y : Int) (m d : Nat) : String :=
  let mon := ((monthNames.get? (m - 1)).getD "").data
  String.mk (natDigits d ++ (' ' :: mon) ++ (' ' :: intDigits y))

/-- One entry of the bounded password-change history. -/
structure HistEntry where
  changedAt : Int
  changedBy : String
deriving DecidableEq, Repr

/-- A row of the `students` table.  `active` is an `Option Bool` because the
source compares it with explicit inequality against `false`
(`s.active !== false`), so a missing value behaves as active. -/
structure Student where
  code : String
  cedula : String
  name : String
  lastname : String
  program : String
  expiry : String
  sede : String
  rh : String
  photo : Option String
  password_hash : String
  active : Option Bool
  first_login : Bool
  password_history : List HistEntry
  created_at : Int
  updated_at : Int
deriving DecidableEq, Repr

/-- The caller-supplied payload of `createOrUpdate` (`studentData`).  Text
fields use `""` where the source treats a missing value and the empty string
alike (the `studentData.x or-else default` idiom); `photo` is `studentData.photo
or-else null`; `active` is `none` when the caller left it `undefined`. -/
structure StudentInput where
  code : String
  cedula : String
  name : String
  lastname : String
  program : String
  expiry : String
  sede : String
  rh : String
  photo : Option String
  active : Option Bool
deriving DecidableEq, Repr

/-- The `data` object `createOrUpdate` builds and applies to a row: every
field of the payload is written (sanitized), `password_hash` is the supplied
digest, `active` is the caller's flag or `true` when the caller omitted it,
and `updated_at` is refreshed; `first_login`, `password_history` and
`created_at` are not part of `data` and stay untouched. -/
def applyStudentData (input : StudentInput) (passwordHash : String) (now : Int)
    (s : Student) : Student :=
  { s with
      code := sanitize input.code
      cedula := sanitize input.cedula
      name := sanitize input.name
      lastname := sanitize input.lastname
      program := sanitize input.program
      expiry := sanitize input.expiry
      sede := sanitize input.sede
      rh := sanitize input.rh
      photo := input.photo
      password_hash := passwordHash
      active := some (input.active.getD true)
      updated_at := now }

/-- The fresh row `createOrUpdate` inserts when no row carries the code: the
sanitized payload, the initial password digest `hash (cedula or-else code)`
(`passwordDefault = studentData.cedula or-else studentData.code`, unsanitized,
hashed), and the forced create-branch assignments `first_login = true`,
`active = true`, `created_at = now` (no history column is written). -/
def createdRow (hash : String → String) (input : StudentInput) (now : Int) : Student :=
  { code := sanitize input.code
    cedula := sanitize input.cedula
    name := sanitize input.name
    lastname := sanitize input.lastname
    program := sanitize input.program
    expiry := sanitize input.expiry
    sede := sanitize input.sede
    rh := sanitize input.rh
    photo := input.photo
    password_hash := hash (if input.cedula = "" then input.code else input.cedula)
    active := some true
    first_login := true
    password_history := []
    created_at := now
    updated_at := now }

/-- The store after the update branch of `createOrUpdate`: every row carrying
the code (the one row, `code` being unique) gets the payload applied with the
already-stored digest `existingHash`; other rows are untouched. -/
def updatedRows (store : List Student) (input : StudentInput)
    (existingHash : String) (now : Int) : List Student :=
  store.map (fun s =>
    if s.code == sanitize input.code then applyStudentData input existingHash now s else s)

/-- `StudentsAPI.createOrUpdate` over the row store: rejects a missing code;
otherwise looks the (sanitized) code up, updates the matching row keeping its
stored `password_hash`, or inserts a fresh row whose initial password digest
is `hash (cedula or-else code)` and whose `first_login` and `active` flags are
forced to `true` (`code` is the table's unique key). -/
def createOrUpdate (hash : String → String) (store : List Student)
    (input : StudentInput) (now : Int) : Except String (List Student) :=
  if input.code = "" then Except.error "Datos de estudiante inválidos"
  else
    match store.find? (fun s => s.code == sanitize input.code) with
    | some e => Except.ok (updatedRows store input e.password_hash now)
    | none => Except.ok (store ++ [createdRow hash input now])

/-- Error message of `loginStudent` when no row matches the code/digest pair. -/
def msgInvalidCredentials : String := "Credenciales inválidas"

/-- Error message of `loginStudent` when the matching row is inactive. -/
def msgInactiveCard : String :=
  "Tu carnet está inactivo. Por favor, contacta con un funcionario para reactivarlo."

/-- `AuthAPI.loginStudent`: selects the row whose `code` equals the sanitized
supplied code and whose `password_hash` equals the digest of the supplied
password (`code` is unique, so at most one row matches); no match is the
generic credentials error, a match with `active === false` is the distinct
inactive-card error, and otherwise the student record is returned. -/
def loginStudent (hash : String → String) (store : List Student)
    (code password : String) : Except String Student :=
  match store.find? (fun s => s.code == sanitize code && s.password_hash == hash password) with
  | none => Except.error msgInvalidCredentials
  | some s =>
    if s.active = some false then Except.error msgInactiveCard
    else Except.ok s

/-- The shared history step of the three password-change operations: append
the new `{changedAt, changedBy}` entry, then `history.slice(-10)` when the
length exceeds 10 (drop all but the most recent 10 entries). -/
def pushHistory (history : List HistEntry) (entry : HistEntry) : List HistEntry :=
  let h := history ++ [entry]
  if 10 < h.length then h.drop (h.length - 10) else h

/-- `AuthAPI.changeStudentPassword` restricted to the matched student row:
stores the new digest, clears `first_login`, appends a history entry with
`changedBy = "self"` and refreshes `updated_at`. -/
def changeStudentPassword (hash : String → String) (s : Student)
    (newPassword : String) (now : Int) : Student :=
  { s with
      password_hash := hash newPassword
      first_login := false
      password_history := pushHistory s.password_history { changedAt := now, changedBy := "self" }
      updated_at := now }

/-- `StudentsAPI.resetPassword` restricted to the matched student row: stores
the new digest, forces `first_login := true`, appends a history entry naming
the acting staff identity and refreshes `updated_at`. -/
def resetPassword (hash : String → String) (s : Student)
    (newPassword changedBy : String) (now : Int) : Student :=
  { s with
      password_hash := hash newPassword
      first_login := true
      password_history := pushHistory s.password_history { changedAt := now, changedBy := changedBy }
      updated_at := now }

/-- One password operation of the credential service (self change or staff
reset), tagged with its wall-clock instant. -/
inductive PwOp where
  | change (newPassword : String) (now : Int)
  | reset (newPassword changedBy : String) (now : Int)
deriving DecidableEq, Repr

/-- Apply one password operation to a student row. -/
def applyPwOp (hash : String → String) (s : Student) : PwOp → Student
  | PwOp.change np now => changeStudentPassword hash s np now
  | PwOp.reset np cb now => resetPassword hash s np cb now

/-- The history entry one password operation records. -/
def pwOpEntry : PwOp → HistEntry
  | PwOp.change _ now => { changedAt := now, changedBy := "self" }
  | PwOp.reset _ cb now => { changedAt := now, changedBy := cb }

/-- A row of the `loans` table.  Timestamps are the ISO strings the source
stores (`new Date().toISOString()`); the gateway-assigned `created_at` column
is not part of the model (no operation of the source reads or writes it). -/
structure Loan where
  id : String
  student_code : String
  student_name : String
  category : String
  item_type : String
  item_description : Option String
  staff_email : String
  staff_name : String
  borrowed_at : String
  returned_at : Option String
  status : String
deriving DecidableEq, Repr

/-- The `loans` insert of `registerLoan` (loans.js): a new row with
`status = "active"`, no `returned_at`, and `borrowed_at` defaulting to the
current instant when the caller supplied none. -/
def registerLoan (loans : List Loan) (newId : String)
    (studentCode studentName category itemType : String)
    (itemDescription : Option String) (staffEmail staffName : String)
    (borrowedAt : Option String) (nowIso : String) : List Loan :=
  loans ++ [{
    id := newId
    student_code := studentCode
    student_name := studentName
    category := category
    item_type := itemType
    item_description := itemDescription
    staff_email := staffEmail
    staff_name := staffName
    borrowed_at := borrowedAt.getD nowIso
    returned_at := none
    status := "active" }]

/-- `returnLoan` (loans.js): unconditionally updates every row whose `id`
matches (ids are unique, so the one loan) to `status = "returned"` and
`returned_at = now`, touching no other column and no other row. -/
def returnLoan (loans : List Loan) (loanId : String) (nowIso : String) : List Loan :=
  loans.map (fun l =>
    if l.id == loanId then { l with status := "returned", returned_at := some nowIso } else l)

/-- `validateStudent` (loans.js): the student row with the given code, when
one exists (`none` models the gateway's no-rows result PGRST116, surfaced as
the not-found error). -/
def validateStudent (students : List Student) (studentCode : String) : Option Student :=
  students.find? (fun s => s.code == studentCode)

/-- Error message surfaced when a loan names a nonexistent student code. -/
def msgStudentNotFound : String := "Estudiante no encontrado"

/-- The persistent state the loan ledger operates on. -/
structure LedgerState where
  students : List Student
  loans : List Loan
deriving DecidableEq, Repr

/-- The register-loan flow of `handleLoanSubmit` (staffLoans.js): validate the
student code first and abort with the not-found error before any insert;
require a non-empty item type; then insert the loan via `registerLoan`, with
the student name snapshot `(name + " " + lastname).trim()` and an empty
description stored as null. -/
def handleLoanSubmit (st : LedgerState) (newId : String)
    (studentCode category itemType description : String)
    (staffEmail staffName : String) (borrowedAt : Option String)
    (nowIso : String) : Except String LedgerState :=
  match validateStudent st.students studentCode with
  | none => Except.error msgStudentNotFound
  | some stu =>
    if itemType = "" then Except.error "Por favor seleccione o ingrese un ítem"
    else Except.ok { st with loans :=
      (registerLoan st.loans newId studentCode ((stu.name ++ " " ++ stu.lastname).trim)
        category itemType (if description = "" then none else some description)
        staffEmail staffName borrowedAt nowIso) }

/-- A concrete inactive student row with known credentials, used to
instantiate theorems on concrete inputs. -/
def sampleStudent : Student :=
  { code := "123456", cedula := "1006543210", name := "Ana", lastname := "Diaz",
    program := "Sistemas", expiry := "2026-01-01", sede := "Buenaventura", rh := "O+",
    photo := none, password_hash := "secret", active := some false, first_login := false,
    password_history := [], created_at := 0, updated_at := 0 }

/-- A concrete already-returned loan row, used to instantiate theorems on
concrete inputs. -/
def sampleLoan : Loan :=
  { id := "L1", student_code := "123456", student_name := "Ana Diaz",
    category := "biblioteca", item_type := "Libros", item_description := none,
    staff_email := "staff@udp.edu", staff_name := "Staff",
    borrowed_at := "2025-01-01T10:00:00.000Z",
    returned_at := some "2025-01-02T10:00:00.000Z", status := "returned" }

/-- A concrete `createOrUpdate` payload (note the caller-supplied
`active = false`). -/
def sampleInput : StudentInput :=
  { code := "12300298", cedula := "1006543210", name := "Ana", lastname := "Diaz",
    program := "Sistemas", expiry := "2026-01-01", sede := "Buenaventura", rh := "O+",
    photo := none, active := some false }

/-- Fifteen sequential staff password resets at instants 0..14. -/
def samplePwOps : List PwOp :=
  (List.range 15).map (fun i => PwOp.reset "newpw" "staff" (i : Int))

/-- A list whose every code-matching element equals `a` finds `a` first. -/
theorem find_unique {α : Type} (p : α → Bool) :
    ∀ (l : List α) (a : α), a ∈ l → p a = true → (∀ b ∈ l, p b = true → b = a) →
      l.find? p = some a := by
  intro l
  induction l with
  | nil => intro a ha _ _; cases ha
  | cons x xs ih =>
    intro a ha hpa huniq
    by_cases hx : p x = true
    · rw [List.find?_cons_of_pos _ hx]
      exact congrArg some (huniq x (List.mem_cons_self x xs) hx)
    · rw [List.find?_cons_of_neg _ hx]
      have hax : a ≠ x := fun h => hx (h ▸ hpa)
      refine ih a ?_ hpa (fun b hb hpb => huniq b (List.mem_cons_of_mem _ hb) hpb)
      rcases List.mem_cons.mp ha with h | h
      · exact absurd h hax
      · exact h

/-- C1: the status badge of a student row is classified with the priority
INACTIVE over EXPIRED over EXPIRING_SOON over ACTIVE: an explicit
`active = false` flag yields INACTIVE regardless of the expiry date;
otherwise an expired date yields EXPIRED; otherwise an expiring-soon date
yields EXPIRING_SOON; otherwise ACTIVE. -/
theorem C1_badge_priority (expiry : String) (active : Option Bool) (now : Int) :
    (active = some false → classify expiry active now = CardStatus.INACTIVE) ∧
    (active ≠ some false → isExpired expiry now = true →
      classify expiry active now = CardStatus.EXPIRED) ∧
    (active ≠ some false → isExpired expiry now = false →
      isExpiringSoon expiry now = true →
      classify expiry active now = CardStatus.EXPIRING_SOON) ∧
    (active ≠ some false → isExpired expiry now = false →
      isExpiringSoon expiry now = false →
      classify expiry active now = CardStatus.ACTIVE) := by
  unfold classify
  refine ⟨fun h => by simp [h], fun h he => by simp [h, he],
    fun h he hs => by simp [h, he, hs], fun h he hs => by simp [h, he, hs]⟩

/-- Witness for C1 at a concrete input: an inactive student is INACTIVE. -/
theorem C1_badge_priority_witness :
    classify "2026-01-01" (some false) 0 = CardStatus.INACTIVE :=
  (C1_badge_priority "2026-01-01" (some false) 0).1 rfl

/-- C8: expiry evaluation is total by construction, and on every input the
parser rejects — the empty string, a malformed ISO date, a long-form string
with an unknown month name — both `isExpired` and `isExpiringSoon` fall back
to `false` (the not-expired default) instead of failing. -/
theorem C8_unparseable_defaults_false (s : String) (now : Int)
    (h : parseExpiry s = none) :
    isExpired s now = false ∧ isExpiringSoon s now = false := by
  unfold isExpired isExpiringSoon
  rw [h]
  exact ⟨rfl, rfl⟩

/-- Witness for C8: the empty string, a malformed ISO date and an unknown
month name all evaluate to false in both status predicates. -/
theorem C8_unparseable_defaults_false_witness :
    (isExpired "" 0 = false ∧ isExpiringSoon "" 0 = false) ∧
    (isExpired "2025-13-40" 0 = false ∧ isExpiringSoon "2025-13-40" 0 = false) ∧
    (isExpired "15 FOO 2025" 0 = false ∧ isExpiringSoon "15 FOO 2025" 0 = false) :=
  ⟨C8_unparseable_defaults_false "" 0 (by decide),
   C8_unparseable_defaults_false "2025-13-40" 0 (by decide),
   C8_unparseable_defaults_false "15 FOO 2025" 0 (by decide)⟩

/-- C2: `returnLoan` maps the loan whose id matches to the same loan with
`status = "returned"` and `returnedAt` set to the current instant, leaving
every other field of that loan and every other loan unchanged; no
precondition restricts the current status, so the update also applies to an
already-returned loan (overwriting its `returnedAt` with the new instant). -/
theorem C2_returnLoan_frame (loans : List Loan) (loanId nowIso : String) :
    (∀ l ∈ loans, l.id = loanId →
      ∃ l' ∈ returnLoan loans loanId nowIso,
        l'.status = "returned" ∧ l'.returned_at = some nowIso ∧
        l'.id = l.id ∧ l'.student_code = l.student_code ∧
        l'.student_name = l.student_name ∧ l'.category = l.category ∧
        l'.item_type = l.item_type ∧ l'.item_description = l.item_description ∧
        l'.staff_email = l.staff_email ∧ l'.staff_name = l.staff_name ∧
        l'.borrowed_at = l.borrowed_at) ∧
    (∀ l ∈ loans, l.id ≠ loanId → l ∈ returnLoan loans loanId nowIso) := by
  constructor
  · intro l hl hid
    refine ⟨{ l with status := "returned", returned_at := some nowIso }, ?_,
      rfl, rfl, rfl, rfl, rfl, rfl, rfl, rfl, rfl, rfl, rfl⟩
    have := List.mem_map_of_mem
      (fun l : Loan => if l.id == loanId then
        { l with status := "returned", returned_at := some nowIso } else l) hl
    simpa [returnLoan, hid] using this
  · intro l hl hid
    have := List.mem_map_of_mem
      (fun l : Loan => if l.id == loanId then
        { l with status := "returned", returned_at := some nowIso } else l) hl
    simpa [returnLoan, hid] using this

/-- Witness for C2 at a concrete input: returning the already-returned sample
loan overwrites its `returnedAt` with the new instant. -/
theorem C2_returnLoan_frame_witness :
    ∃ l' ∈ returnLoan [sampleLoan] "L1" "2025-03-01T09:00:00.000Z",
      l'.status = "returned" ∧ l'.returned_at = some "2025-03-01T09:00:00.000Z" ∧
      l'.id = sampleLoan.id ∧ l'.student_code = sampleLoan.student_code ∧
      l'.student_name = sampleLoan.student_name ∧ l'.category = sampleLoan.category ∧
      l'.item_type = sampleLoan.item_type ∧ l'.item_description = sampleLoan.item_description ∧
      l'.staff_email = sampleLoan.staff_email ∧ l'.staff_name = sampleLoan.staff_name ∧
      l'.borrowed_at = sampleLoan.borrowed_at :=
  (C2_returnLoan_frame [sampleLoan] "L1" "2025-03-01T09:00:00.000Z").1
    sampleLoan (List.mem_singleton.mpr rfl) rfl

/-- C9: submitting a loan for a student code that resolves to no student row
fails with the not-found error and inserts no loan (the state is rejected
whole, never returned ok). -/
theorem C9_register_unknown_student (st : LedgerState) (newId : String)
    (studentCode category itemType description staffEmail staffName : String)
    (borrowedAt : Option String) (nowIso : String)
    (h : ∀ s ∈ st.students, s.code ≠ studentCode) :
    handleLoanSubmit st newId studentCode category itemType description
        staffEmail staffName borrowedAt nowIso = Except.error msgStudentNotFound ∧
    ∀ st' : LedgerState,
      handleLoanSubmit st newId studentCode category itemType description
        staffEmail staffName borrowedAt nowIso ≠ Except.ok st' := by
  have hv : validateStudent st.students studentCode = none := by
    apply List.find?_eq_none.mpr
    intro s hs
    simp [h s hs]
  constructor
  · unfold handleLoanSubmit
    rw [hv]
  · intro st' hcontra
    unfold handleLoanSubmit at hcontra
    rw [hv] at hcontra
    cases hcontra

/-- Witness for C9 at a concrete input: code "00000000" resolves to no
student, so the submission fails and no state is returned. -/
theorem C9_register_unknown_student_witness :
    handleLoanSubmit ⟨[sampleStudent], []⟩ "L2" "00000000" "biblioteca"
        "Computador portátil" "" "staff@udp.edu" "Staff" none
        "2025-03-01T09:00:00.000Z" = Except.error msgStudentNotFound :=
  (C9_register_unknown_student ⟨[sampleStudent], []⟩ "L2" "00000000" "biblioteca"
    "Computador portátil" "" "staff@udp.edu" "Staff" none "2025-03-01T09:00:00.000Z"
    (by intro s hs; simp [List.mem_singleton] at hs; subst hs; decide)).1

/-- C5: a student row whose `active` flag is `false` fails `loginStudent`
even when the supplied password's digest matches the stored hash, and it
fails with the distinguished inactive-card message, which differs from the
generic bad-credentials message raised when no row matches. -/
theorem C5_inactive_login (hash : String → String) (store : List Student)
    (code password : String) (s : Student)
    (hmem : s ∈ store) (hcode : s.code = sanitize code)
    (hpw : s.password_hash = hash password)
    (huniq : ∀ t ∈ store, t.code = sanitize code → t = s)
    (hinactive : s.active = some false) :
    loginStudent hash store code password = Except.error msgInactiveCard ∧
    msgInactiveCard ≠ msgInvalidCredentials := by
  constructor
  · unfold loginStudent
    have hfind : store.find?
        (fun t => t.code == sanitize code && t.password_hash == hash password) = some s := by
      apply find_unique _ store s hmem
      · simp [hcode, hpw]
      · intro b hb hpb
        simp only [Bool.and_eq_true, beq_iff_eq] at hpb
        exact huniq b hb hpb.1
    rw [hfind]
    simp [hinactive]
  · decide

/-- Witness for C5 at a concrete input: the inactive sample student with the
correct password gets the inactive-card error, not the credentials error. -/
theorem C5_inactive_login_witness :
    loginStudent id [sampleStudent] "123456" "secret" = Except.error msgInactiveCard ∧
    msgInactiveCard ≠ msgInvalidCredentials :=
  C5_inactive_login id [sampleStudent] "123456" "secret" sampleStudent
    (List.mem_singleton.mpr rfl) (by decide) rfl
    (by intro t ht _; simpa [List.mem_singleton] using ht) rfl

/-- One `pushHistory` step on a suffix-truncated history extends the
truncation by one entry. -/
theorem pushHistory_drop (es : List HistEntry) (e : HistEntry) :
    pushHistory (es.drop (es.length - 10)) e =
      (es ++ [e]).drop (es.length + 1 - 10) := by
  unfold pushHistory
  by_cases hn : es.length < 10
  · have h0 : es.length - 10 = 0 := by omega
    have h1 : es.length + 1 - 10 = 0 := by omega
    simp [h0, h1]
  · have hlen : (es.drop (es.length - 10)).length = 10 := by
      simp [List.length_drop]; omega
    have hcond : 10 < (es.drop (es.length - 10) ++ [e]).length := by
      simp [hlen]
    rw [if_pos hcond]
    have harith : (es.drop (es.length - 10) ++ [e]).length - 10 = 1 := by
      simp [hlen]
    rw [harith]
    have hd1 : (es.drop (es.length - 10) ++ [e]).drop 1 =
        (es.drop (es.length - 10)).drop 1 ++ [e] := by
      rw [List.drop_append_of_le_length (by omega)]
    rw [hd1, List.drop_drop]
    have hd2 : (es ++ [e]).drop (es.length + 1 - 10) =
        es.drop (es.length + 1 - 10) ++ [e] := by
      rw [List.drop_append_of_le_length (by omega)]
    rw [hd2]
    have harith2 : es.length - 10 + 1 = es.length + 1 - 10 := by omega
    rw [harith2]

/-- Folding `pushHistory` over a change sequence from an empty history keeps
exactly the most recent (up to) ten entries. -/
theorem foldl_pushHistory (es : List HistEntry) :
    List.foldl pushHistory [] es = es.drop (es.length - 10) := by
  induction es using List.reverseRecOn with
  | nil => rfl
  | append_singleton es e ih =>
    rw [List.foldl_append, ih]
    simp only [List.foldl_cons, List.foldl_nil, List.length_append,
      List.length_singleton]
    exact pushHistory_drop es e

/-- The history field after a sequence of password operations is the fold of
`pushHistory` over their entries. -/
theorem foldl_applyPwOp_history (hash : String → String) (s : Student)
    (ops : List PwOp) :
    (ops.foldl (applyPwOp hash) s).password_history =
      List.foldl pushHistory s.password_history (ops.map pwOpEntry) := by
  induction ops generalizing s with
  | nil => rfl
  | cons op rest ih =>
    simp only [List.foldl_cons, List.map_cons]
    rw [ih]
    congr 1
    cases op <;> rfl

/-- C3: starting from a freshly created principal (empty history), any
sequence of password change or reset operations leaves `passwordHistory`
holding exactly the `{changedAt, changedBy}` entries of the most recent (up
to) ten operations, oldest dropped first, hence never more than ten. -/
theorem C3_password_history_window (hash : String → String) (s : Student)
    (hinit : s.password_history = []) (ops : List PwOp) :
    (ops.foldl (applyPwOp hash) s).password_history =
      (ops.map pwOpEntry).drop (ops.length - 10) ∧
    (ops.foldl (applyPwOp hash) s).password_history.length ≤ 10 := by
  have h := foldl_applyPwOp_history hash s ops
  rw [hinit, foldl_pushHistory, List.length_map] at h
  refine ⟨h, ?_⟩
  rw [h]
  simp [List.length_drop, List.length_map]
  omega

/-- Witness for C3: fifteen sequential resets on a fresh student leave
exactly the entries of the last ten (instants 5..14). -/
theorem C3_password_history_window_witness :
    (samplePwOps.foldl (applyPwOp id) { sampleStudent with password_history := [] }).password_history =
      (samplePwOps.map pwOpEntry).drop 5 ∧
    (samplePwOps.foldl (applyPwOp id) { sampleStudent with password_history := [] }).password_history.length ≤ 10 :=
  ⟨by rw [(C3_password_history_window id _ rfl samplePwOps).1]; decide,
   (C3_password_history_window id _ rfl samplePwOps).2⟩

/-- C4: when `createOrUpdate` sees a code with no existing row, the inserted
row's password digest is `hash cedula` when a national id was supplied and
`hash code` when it was absent; when a row with the code already exists, the
updated row keeps the stored digest, whatever the payload carries. -/
theorem C4_default_password (hash : String → String) (store : List Student)
    (input : StudentInput) (now : Int) (hcode : input.code ≠ "") :
    ((∀ s ∈ store, s.code ≠ sanitize input.code) →
      createOrUpdate hash store input now =
        Except.ok (store ++ [createdRow hash input now]) ∧
      (input.cedula ≠ "" → (createdRow hash input now).password_hash = hash input.cedula) ∧
      (input.cedula = "" → (createdRow hash input now).password_hash = hash input.code)) ∧
    (∀ e ∈ store, e.code = sanitize input.code →
      (∀ t ∈ store, t.code = sanitize input.code → t = e) →
      createOrUpdate hash store input now =
        Except.ok (updatedRows store input e.password_hash now) ∧
      ∀ s ∈ updatedRows store input e.password_hash now,
        s.code = sanitize input.code → s.password_hash = e.password_hash) := by
  constructor
  · intro hnone
    have hfind : store.find? (fun s => s.code == sanitize input.code) = none := by
      apply List.find?_eq_none.mpr
      intro s hs
      simp [hnone s hs]
    refine ⟨?_, ?_, ?_⟩
    · unfold createOrUpdate
      rw [if_neg hcode]
      simp only [hfind]
    · intro hced
      simp [createdRow, if_neg hced]
    · intro hced
      simp [createdRow, if_pos hced]
  · intro e he hecode huniq
    have hfind : store.find? (fun s => s.code == sanitize input.code) = some e := by
      apply find_unique _ store e he
      · simp [hecode]
      · intro b hb hpb
        simp only [beq_iff_eq] at hpb
        exact huniq b hb hpb
    refine ⟨?_, ?_⟩
    · unfold createOrUpdate
      rw [if_neg hcode]
      simp only [hfind]
    · intro s hs hscode
      rcases List.mem_map.mp hs with ⟨t, ht, hts⟩
      by_cases htc : t.code = sanitize input.code
      · rw [← hts]
        simp [htc, applyStudentData]
      · rw [← hts] at hscode ⊢
        simp only [beq_iff_eq, if_neg htc] at hscode ⊢
        exact absurd hscode htc

/-- Witness for C4: creating the sample student in an empty store stores the
digest of its cedula "1006543210" as the initial password hash. -/
theorem C4_default_password_witness :
    createOrUpdate id [] sampleInput 0 =
      Except.ok ([] ++ [createdRow id sampleInput 0]) ∧
    (createdRow id sampleInput 0).password_hash = "1006543210" :=
  ⟨((C4_default_password id [] sampleInput 0 (by decide)).1
      (by intro s hs; cases hs)).1,
   by rw [((C4_default_password id [] sampleInput 0 (by decide)).1
      (by intro s hs; cases hs)).2.1 (by decide)]; rfl⟩

/-- C10: a row created by `createOrUpdate` always gets `first_login = true`
and `active = true`, whatever `active` value the payload carried; on an
update of an existing row the payload's `active` flag (or `true` when it was
omitted) is stored and `first_login` stays as it was. -/
theorem C10_create_forces_flags (hash : String → String) (store : List Student)
    (input : StudentInput) (now : Int) (hcode : input.code ≠ "") :
    ((∀ s ∈ store, s.code ≠ sanitize input.code) →
      createOrUpdate hash store input now =
        Except.ok (store ++ [createdRow hash input now]) ∧
      (createdRow hash input now).first_login = true ∧
      (createdRow hash input now).active = some true) ∧
    (∀ e ∈ store, e.code = sanitize input.code →
      (∀ t ∈ store, t.code = sanitize input.code → t = e) →
      createOrUpdate hash store input now =
        Except.ok (updatedRows store input e.password_hash now) ∧
      ∀ s ∈ updatedRows store input e.password_hash now,
        s.code = sanitize input.code →
          s.active = some (input.active.getD true) ∧ s.first_login = e.first_login) := by
  constructor
  · intro hnone
    have hfind : store.find? (fun s => s.code == sanitize input.code) = none := by
      apply List.find?_eq_none.mpr
      intro s hs
      simp [hnone s hs]
    refine ⟨?_, rfl, rfl⟩
    unfold createOrUpdate
    rw [if_neg hcode]
    simp only [hfind]
  · intro e he hecode huniq
    have hfind : store.find? (fun s => s.code == sanitize input.code) = some e := by
      apply find_unique _ store e he
      · simp [hecode]
      · intro b hb hpb
        simp only [beq_iff_eq] at hpb
        exact huniq b hb hpb
    refine ⟨?_, ?_⟩
    · unfold createOrUpdate
      rw [if_neg hcode]
      simp only [hfind]
    · intro s hs hscode
      rcases List.mem_map.mp hs with ⟨t, ht, hts⟩
      by_cases htc : t.code = sanitize input.code
      · rw [← hts]
        have hte : t = e := huniq t ht htc
        simp [htc, applyStudentData, hte, hecode]
      · rw [← hts] at hscode ⊢
        simp only [beq_iff_eq, if_neg htc] at hscode ⊢
        exact absurd hscode htc

/-- Witness for C10: the sample payload carries `active = false`, yet the
created row stores `first_login = true` and `active = true`. -/
theorem C10_create_forces_flags_witness :
    createOrUpdate id [] sampleInput 0 =
      Except.ok ([] ++ [createdRow id sampleInput 0]) ∧
    (createdRow id sampleInput 0).first_login = true ∧
    (createdRow id sampleInput 0).active = some true :=
  (C10_create_forces_flags id [] sampleInput 0 (by decide)).1 (by intro s hs; cases hs)

/-- The ceil-divided day distance of a date exactly `k` days past the current
midnight is `k`, whatever the time of day of `now`. -/
theorem jsCeilDiv_days_ahead (now k : Int) :
    jsCeilDiv (midnightOf now + k * msPerDay - now) msPerDay = k := by
  unfold jsCeilDiv midnightOf msPerDay
  have hD : (86400000 : Int) ≠ 0 := by norm_num
  have h1 : -(now / 86400000 * 86400000 + k * 86400000 - now) =
      now % 86400000 + -k * 86400000 := by
    rw [Int.emod_def]
    ring
  rw [h1, Int.add_mul_ediv_right _ _ hD,
    Int.ediv_eq_zero_of_lt (Int.emod_nonneg now hD) (Int.emod_lt_of_pos now (by norm_num))]
  ring

/-- C6: on every parseable expiry string, `isExpiringSoon` holds exactly when
the ceiling of the day distance from the reference instant to the expiry
midnight is between 0 and 30; consequently, for a non-inactive student an
expiry 15 days past today's midnight classifies as EXPIRING_SOON and one 31
days past classifies as ACTIVE. -/
theorem C6_expiring_soon_window (s : String) (now e : Int)
    (hp : parseExpiry s = some e) :
    (isExpiringSoon s now = true ↔
      0 ≤ jsCeilDiv (e - now) msPerDay ∧ jsCeilDiv (e - now) msPerDay ≤ 30) ∧
    (∀ a : Option Bool, a ≠ some false → e = midnightOf now + 15 * msPerDay →
      classify s a now = CardStatus.EXPIRING_SOON) ∧
    (∀ a : Option Bool, a ≠ some false → e = midnightOf now + 31 * msPerDay →
      classify s a now = CardStatus.ACTIVE) := by
  have hsoon : ∀ k : Int, e = midnightOf now + k * msPerDay →
      isExpiringSoon s now = decide (0 ≤ k ∧ k ≤ 30) := by
    intro k hk
    unfold isExpiringSoon
    rw [hp]
    show decide (0 ≤ jsCeilDiv (e - now) msPerDay ∧ jsCeilDiv (e - now) msPerDay ≤ 30) =
      decide (0 ≤ k ∧ k ≤ 30)
    have harg : e - now = midnightOf now + k * msPerDay - now := by rw [hk]
    rw [harg, jsCeilDiv_days_ahead]
  have hexp : ∀ k : Int, 0 < k → e = midnightOf now + k * msPerDay →
      isExpired s now = false := by
    intro k hkpos hk
    unfold isExpired
    rw [hp]
    show decide (e < midnightOf now) = false
    simp only [decide_eq_false_iff_not, not_lt, hk]
    unfold midnightOf msPerDay
    have : (0 : Int) ≤ k * 86400000 := by positivity
    omega
  refine ⟨?_, ?_, ?_⟩
  · unfold isExpiringSoon
    rw [hp]
    show decide (0 ≤ jsCeilDiv (e - now) msPerDay ∧ jsCeilDiv (e - now) msPerDay ≤ 30) = true ↔ _
    exact decide_eq_true_iff
  · intro a ha hk
    unfold classify
    rw [if_neg ha, hexp 15 (by norm_num) hk, hsoon 15 hk]
    simp
  · intro a ha hk
    unfold classify
    rw [if_neg ha, hexp 31 (by norm_num) hk, hsoon 31 hk]
    simp

/-- Witness for C6: seen from noon on 2025-01-01, the expiry "2025-01-16"
(15 days ahead) renders the EXPIRING_SOON badge and "2025-02-01" (31 days
ahead) renders the ACTIVE badge. -/
theorem C6_expiring_soon_window_witness :
    classify "2025-01-16" (some true) (1735689600000 + 43200000) =
      CardStatus.EXPIRING_SOON ∧
    classify "2025-02-01" (some true) (1735689600000 + 43200000) =
      CardStatus.ACTIVE :=
  ⟨(C6_expiring_soon_window "2025-01-16" (1735689600000 + 43200000)
      1736985600000 (by decide)).2.1 (some true) (by decide) (by decide),
   (C6_expiring_soon_window "2025-02-01" (1735689600000 + 43200000)
      1738368000000 (by decide)).2.2 (some true) (by decide) (by decide)⟩

/-- Every digit character is a decimal digit. -/
theorem isDigit_digitChar : ∀ n : Nat, n < 10 → (Nat.digitChar n).isDigit = true := by
  decide

/-- `digitVal` inverts `Nat.digitChar` below 10. -/
theorem digitVal_digitChar : ∀ n : Nat, n < 10 → digitVal (Nat.digitChar n) = n := by
  decide

/-- With enough fuel the digit rendering is made of digit characters only. -/
theorem natDigitsAux_all_digit :
    ∀ (fuel n : Nat), n < fuel → ∀ c ∈ natDigitsAux fuel n, c.isDigit = true := by
  intro fuel
  induction fuel with
  | zero => intro n h; omega
  | succ fuel ih =>
    intro n hn c hc
    simp only [natDigitsAux] at hc
    split at hc
    · rename_i h10
      rw [List.mem_singleton] at hc
      rw [hc]
      exact isDigit_digitChar n h10
    · rename_i h10
      rcases List.mem_append.mp hc with h | h
      · exact ih (n / 10) (by omega) c h
      · rw [List.mem_singleton] at h
        rw [h]
        exact isDigit_digitChar (n % 10) (by omega)

/-- The digit rendering of a natural number is made of digit characters. -/
theorem natDigits_all_digit (n : Nat) : ∀ c ∈ natDigits n, c.isDigit = true :=
  natDigitsAux_all_digit (n + 1) n (by omega)

/-- With enough fuel the digit rendering is nonempty. -/
theorem natDigitsAux_ne_nil :
    ∀ (fuel n : Nat), n < fuel → natDigitsAux fuel n ≠ [] := by
  intro fuel
  induction fuel with
  | zero => intro n h; omega
  | succ fuel ih =>
    intro n hn
    simp only [natDigitsAux]
    split
    · simp
    · simp

/-- The digit rendering of a natural number is nonempty. -/
theorem natDigits_ne_nil (n : Nat) : natDigits n ≠ [] :=
  natDigitsAux_ne_nil (n + 1) n (by omega)

/-- Appending one digit multiplies the accumulated value by ten. -/
theorem digitsVal_append (l : List Char) (c : Char) :
    digitsVal (l ++ [c]) = digitsVal l * 10 + digitVal c := by
  unfold digitsVal
  rw [List.foldl_append]
  rfl

/-- With enough fuel, parsing the digit rendering recovers the number. -/
theorem natDigitsAux_val :
    ∀ (fuel n : Nat), n < fuel → digitsVal (natDigitsAux fuel n) = n := by
  intro fuel
  induction fuel with
  | zero => intro n h; omega
  | succ fuel ih =>
    intro n hn
    simp only [natDigitsAux]
    split
    · rename_i h10
      show digitsVal [Nat.digitChar n] = n
      unfold digitsVal
      simp [digitVal_digitChar n h10]
    · rename_i h10
      rw [digitsVal_append, ih (n / 10) (by omega),
        digitVal_digitChar (n % 10) (by omega)]
      omega

/-- Parsing the digit rendering of a natural number recovers the number. -/
theorem digitsVal_natDigits (n : Nat) : digitsVal (natDigits n) = n :=
  natDigitsAux_val (n + 1) n (by omega)

/-- `takeWhile` keeps a list all of whose elements satisfy the predicate. -/
theorem takeWhile_of_all {α : Type} (p : α → Bool) (l : List α)
    (h : ∀ x ∈ l, p x = true) : l.takeWhile p = l := by
  induction l with
  | nil => rfl
  | cons x xs ih =>
    rw [List.takeWhile_cons_of_pos (h x (List.mem_cons_self x xs)),
      ih (fun y hy => h y (List.mem_cons_of_mem x hy))]

/-- `jsParseInt` inverts the decimal rendering of a natural number. -/
theorem jsParseInt_natDigits (n : Nat) : jsParseInt (natDigits n) = some (n : Int) := by
  obtain ⟨c, cs, hc⟩ := List.exists_cons_of_ne_nil (natDigits_ne_nil n)
  have hall : ∀ x ∈ natDigits n, x.isDigit = true := natDigits_all_digit n
  have hcd : c.isDigit = true := hall c (by rw [hc]; exact List.mem_cons_self c cs)
  have hcm : ¬ c = '-' := by
    intro h
    rw [h] at hcd
    exact absurd hcd (by decide)
  have htw : (c :: cs).takeWhile Char.isDigit = c :: cs :=
    takeWhile_of_all _ _ (fun x hx => hall x (by rw [hc]; exact hx))
  have hval : digitsVal (c :: cs) = n := by rw [← hc, digitsVal_natDigits]
  rw [hc]
  unfold jsParseInt
  simp [hcm, htw, hval]

/-- `splitChar` never returns the empty list of fragments. -/
theorem splitChar_ne_nil (sep : Char) (l : List Char) : splitChar sep l ≠ [] := by
  cases l with
  | nil => simp [splitChar]
  | cons c rest =>
    unfold splitChar
    cases h : splitChar sep rest with
    | nil => simp
    | cons a t =>
      dsimp only
      split
      · simp
      · simp

/-- A fragment without the separator is returned whole. -/
theorem splitChar_not_mem (sep : Char) (l : List Char) (h : sep ∉ l) :
    splitChar sep l = [l] := by
  induction l with
  | nil => rfl
  | cons c rest ih =>
    have hc : ¬ c = sep := fun he => h (he ▸ List.mem_cons_self c rest)
    have hr : sep ∉ rest := fun hm => h (List.mem_cons_of_mem c hm)
    unfold splitChar
    rw [ih hr]
    simp [hc]

/-- Splitting after a separator-free prefix peels that prefix off. -/
theorem splitChar_append (sep : Char) (a b : List Char) (h : sep ∉ a) :
    splitChar sep (a ++ sep :: b) = a :: splitChar sep b := by
  induction a with
  | nil =>
    simp only [List.nil_append]
    cases hs : splitChar sep b with
    | nil => exact absurd hs (splitChar_ne_nil sep b)
    | cons x t =>
      simp only [splitChar]
      rw [hs]
      simp
  | cons c rest ih =>
    have hc : ¬ c = sep := fun he => h (he ▸ List.mem_cons_self c rest)
    have hr : sep ∉ rest := fun hm => h (List.mem_cons_of_mem c hm)
    simp only [List.cons_append, splitChar, List.append_eq]
    rw [ih hr]
    simp [hc]

/-- No decimal digit is a space, so digit renderings are separator-free. -/
theorem natDigits_no_space (n : Nat) : ' ' ∉ natDigits n := by
  intro h
  exact absurd (natDigits_all_digit n ' ' h) (by decide)

/-- The twelve month names are space-free and each is found at its own index
by the parser's vocabulary lookup. -/
theorem month_facts (m : Nat) (h1 : 1 ≤ m) (h2 : m ≤ 12) :
    ' ' ∉ ((monthNames.get? (m - 1)).getD "").data ∧
    monthIndexOf ((monthNames.get? (m - 1)).getD "").data = some (m - 1) := by
  interval_cases m <;> exact ⟨by decide, by decide⟩

/-- The long-form branch of the expiry parser, fully determined by the split
fragments and their component parses. -/
theorem parseExpiryChars_long (cs p0 p1 p2 : List Char) (rest : List (List Char))
    (mi : Nat) (dv yv : Int)
    (hne : ¬ cs = []) (hsp : ' ' ∈ cs)
    (hsplit : splitChar ' ' cs = p0 :: p1 :: p2 :: rest)
    (hmi : monthIndexOf p1 = some mi)
    (hd : jsParseInt p0 = some dv) (hy : jsParseInt p2 = some yv) :
    parseExpiryChars cs = some (jsDateYMD yv mi dv) := by
  unfold parseExpiryChars
  rw [if_neg hne, if_pos hsp, hsplit]
  simp only [hmi, hd, hy]

/-- C7 (amended): for every calendar date whose year is at least 100, the
Spanish long-form rendering parses back to the same calendar date; the
amendment excludes years 0 to 99, which the parser's `Date(year, month, day)`
constructor shifts by 1900. -/
theorem C7_roundtrip_amended (y : Int) (m d : Nat)
    (hy : 100 ≤ y) (hm1 : 1 ≤ m) (hm2 : m ≤ 12)
    (hd1 : 1 ≤ d) (hd2 : d ≤ daysInMonth y m) :
    parseExpiry (formatDateToSpanish y m d) = some (dateToMs y m (d : Int)) := by
  obtain ⟨hmsp, hmidx⟩ := month_facts m hm1 hm2
  have hyd : intDigits y = natDigits y.natAbs := by
    unfold intDigits
    rw [if_neg (by omega)]
  have hjs : jsDateYMD y (m - 1) (d : Int) = dateToMs y m (d : Int) := by
    unfold jsDateYMD
    rw [if_neg (by omega)]
    have hm' : m - 1 + 1 = m := by omega
    rw [hm']
  have hcs : (formatDateToSpanish y m d).data =
      natDigits d ++ ' ' ::
        (((monthNames.get? (m - 1)).getD "").data ++ ' ' :: intDigits y) := by
    show natDigits d ++ (' ' :: ((monthNames.get? (m - 1)).getD "").data) ++
        (' ' :: intDigits y) = _
    simp [List.append_assoc]
  unfold parseExpiry
  rw [hcs, ← hjs]
  apply parseExpiryChars_long _ (natDigits d)
    (((monthNames.get? (m - 1)).getD "").data) (intDigits y) [] (m - 1) (d : Int) y
  · simp [natDigits_ne_nil d]
  · simp
  · rw [splitChar_append _ _ _ (natDigits_no_space d),
      splitChar_append _ _ _ hmsp,
      splitChar_not_mem _ _ (by rw [hyd]; exact natDigits_no_space _)]
  · exact hmidx
  · exact jsParseInt_natDigits d
  · rw [hyd, jsParseInt_natDigits]
    congr 1
    exact Int.natAbs_of_nonneg (by omega)

/-- Witness for the amended C7 at a concrete input: 15 January 2025 survives
the format-then-parse round trip. -/
theorem C7_roundtrip_amended_witness :
    parseExpiry (formatDateToSpanish 2025 1 15) = some (dateToMs 2025 1 15) :=
  C7_roundtrip_amended 2025 1 15 (by norm_num) (by norm_num) (by norm_num)
    (by norm_num) (by decide)

/-- Counterexample to C7 as stated: 15 January of year 50 formats to
"15 ENERO 50", which the parser maps to 15 January 1950 — a different
calendar date — because the `Date(year, month, day)` constructor treats
years 0 to 99 as 1900 + year. -/
theorem C7_roundtrip_counterexample :
    formatDateToSpanish 50 1 15 = "15 ENERO 50" ∧
    parseExpiry (formatDateToSpanish 50 1 15) = some (dateToMs 1950 1 15) ∧
    dateToMs 1950 1 15 ≠ dateToMs 50 1 15 := by
  refine ⟨by decide, by decide, by decide⟩

end Carnet
